import Mathlib

/-!
Verification development for the open-wearables MCP analytics layer.

The definitions below are a shallow embedding of the aggregation tools in
`backend/mcp/tools/analytics.py` and of the argument-validation prefix of
`get_timeseries` in `backend/mcp/tools/timeseries.py`.  Python floats are
modelled as exact rationals, Python `round(x, n)` as round-half-even at
`n` decimal digits, `int(x)` as truncation toward zero, and Python dicts
keyed by strings as association lists kept in insertion order.  The record
source (database service layer), the MCP transport and the standard-library
parsers (`datetime.fromisoformat`, `uuid.UUID`, the `SeriesType` enum
constructor) are external collaborators; the parsers are taken as function
parameters where the embedded control flow needs them.
-/

/-! ### Python numeric primitives -/

/-- Floor of a rational, used as the integer part for round-half-even. -/
def ratFloor (q : ℚ) : ℤ := Int.fdiv q.num (q.den : ℤ)

/-- Round a rational to the nearest integer, ties to the even integer.
This is the rounding mode of Python's built-in `round`. -/
def roundHalfEven (q : ℚ) : ℤ :=
  let f : ℤ := ratFloor q
  let r : ℚ := q - (f : ℚ)
  if r < 1 / 2 then f
  else if 1 / 2 < r then f + 1
  else if f % 2 = 0 then f else f + 1

/-- Python `round(q, n)`: round-half-even at `n` decimal digits. -/
def pyRound (q : ℚ) (n : ℕ) : ℚ :=
  (roundHalfEven (q * (10 : ℚ) ^ n) : ℚ) / (10 : ℚ) ^ n

/-- Python `int(q)` on a float value: truncation toward zero. -/
def pyInt (q : ℚ) : ℤ := Int.tdiv q.num (q.den : ℤ)

/-- Python `x or d` for an optional integer `x`: `None` and `0` are falsy. -/
def pyOrInt (x : Option ℤ) (d : ℤ) : ℤ :=
  match x with
  | none => d
  | some v => if v = 0 then d else v

/-- Python `x or d` for an optional string `x`: `None` and `""` are falsy. -/
def pyOrStr (x : Option String) (d : String) : String :=
  match x with
  | none => d
  | some v => if v = "" then d else v

/-- Python `min(l)`; `none` on the empty list, where CPython raises. -/
def pyMin : List ℚ → Option ℚ
  | [] => none
  | a :: t => some (t.foldl min a)

/-- Python `max(l)`; `none` on the empty list, where CPython raises. -/
def pyMax : List ℚ → Option ℚ
  | [] => none
  | a :: t => some (t.foldl max a)

/-! ### Data model (records returned by the external record source) -/

/-- Modelled from the spec: the series-type enum lives in
`app/schemas/series_types.py`, outside the embedded sources.  The spec lists
the enumerated domain as heart_rate, resting_heart_rate, steps, energy,
exercise_time, and others; `other` stands for the remaining members. -/
inductive SeriesType where
  | heart_rate
  | resting_heart_rate
  | steps
  | energy
  | exercise_time
  | other (tag : String)
deriving DecidableEq

/-- Modelled from the spec: `SeriesType(st)` parsing of a requested name,
which raises `ValueError` (here: `none`) on an unknown name. -/
def SeriesType.parse (s : String) : Option SeriesType :=
  if s = "heart_rate" then some .heart_rate
  else if s = "resting_heart_rate" then some .resting_heart_rate
  else if s = "steps" then some .steps
  else if s = "energy" then some .energy
  else if s = "exercise_time" then some .exercise_time
  else none

/-- A parsed datetime; only the calendar date (as an abstract day index) is
observable to the embedded code, through `.date()`. -/
structure PyDateTime where
  date : ℤ
deriving DecidableEq

/-- A time-series sample as returned by `timeseries_service`. -/
structure Sample where
  type : SeriesType
  value : ℚ
  timestamp : Option PyDateTime
deriving DecidableEq

/-- A workout record as returned by `event_record_service.get_workouts`. -/
structure Workout where
  type : Option String
  duration_seconds : Option ℤ
  avg_heart_rate_bpm : Option ℤ
deriving DecidableEq

/-- The optional sleep-stages sub-record of a sleep session. -/
structure SleepStages where
  deep_seconds : Option ℤ
  light_seconds : Option ℤ
  rem_seconds : Option ℤ
  awake_seconds : Option ℤ
deriving DecidableEq

/-- A sleep session as returned by `event_record_service.get_sleep_sessions`. -/
structure SleepSession where
  duration_seconds : Option ℤ
  efficiency_percent : Option ℚ
  is_nap : Bool
  stages : Option SleepStages
deriving DecidableEq

/-! ### Python dict / sorted machinery for the workout-type breakdown -/

/-- Occurrences of a key in a list of strings. -/
def keyCount : List String → String → ℕ
  | [], _ => 0
  | a :: t, k => keyCount t k + (if a = k then 1 else 0)

/-- The distinct elements of a list in first-encounter order, skipping those
already in `seen`; the insertion order of the keys of a Python dict built by
repeated updates. -/
def firstSeenFrom (seen : List String) : List String → List String
  | [] => []
  | a :: t => if a ∈ seen then firstSeenFrom seen t else a :: firstSeenFrom (a :: seen) t

/-- Python `d[k] = d.get(k, 0) + 1` on an insertion-ordered dict: increment
the entry for `k` in place, or append `(k, 1)` at the end. -/
def bumpCount : List (String × ℕ) → String → List (String × ℕ)
  | [], k => [(k, 1)]
  | p :: t, k => if p.1 = k then (p.1, p.2 + 1) :: t else p :: bumpCount t k

/-- Python `d[k] = d.get(k, 0) + v` on an insertion-ordered dict. -/
def bumpDur : List (String × ℤ) → String → ℤ → List (String × ℤ)
  | [], k, v => [(k, v)]
  | p :: t, k, v => if p.1 = k then (p.1, p.2 + v) :: t else p :: bumpDur t k v

/-- Python `d.get(k, 0)`. -/
def lookupDur : List (String × ℤ) → String → ℤ
  | [], _ => 0
  | p :: t, k => if p.1 = k then p.2 else lookupDur t k

/-- Insert one entry into a list already sorted by descending count, after
every entry with a strictly larger count; folding this realizes Python's
stable `sorted(key=count, reverse=True)`. -/
def insertDesc (e : String × ℕ) : List (String × ℕ) → List (String × ℕ)
  | [] => [e]
  | h :: t => if e.2 < h.2 then h :: insertDesc e t else e :: h :: t

/-- Stable sort by descending count: Python
`sorted(d.items(), key=lambda x: x[1], reverse=True)`. -/
def sortByCountDesc (l : List (String × ℕ)) : List (String × ℕ) :=
  l.foldr insertDesc []

/-! ### get_workout_summary -/

/-- The per-workout type tag: `w.type or "unknown"`. -/
def wtypeOf (w : Workout) : String := pyOrStr w.type "unknown"

/-- The `type_counts` dict after the aggregation loop of
`get_workout_summary`. -/
def typeCounts (workouts : List Workout) : List (String × ℕ) :=
  (workouts.map wtypeOf).foldl bumpCount []

/-- The `type_durations` dict after the aggregation loop of
`get_workout_summary`. -/
def typeDurations (workouts : List Workout) : List (String × ℤ) :=
  workouts.foldl (fun acc w => bumpDur acc (wtypeOf w) (pyOrInt w.duration_seconds 0)) []

/-- The `hr_values` list of `get_workout_summary`: appended only when
`w.avg_heart_rate_bpm` is truthy, so `None` and `0` are both skipped. -/
def hrValues (workouts : List Workout) : List ℤ :=
  workouts.filterMap fun w =>
    match w.avg_heart_rate_bpm with
    | some v => if v = 0 then none else some v
    | none => none

/-- The per-type entry of the `workout_types` breakdown. -/
structure TypeStats where
  count : ℕ
  total_duration_minutes : ℚ
deriving DecidableEq

/-- The `heart_rate` block of the workout summary. -/
structure WorkoutHRBlock where
  avg_across_workouts : Option ℚ
  workouts_with_hr_data : ℕ
deriving DecidableEq

/-- The two return shapes of `get_workout_summary`: the zeroed empty-input
dict (which has no `heart_rate` key) and the populated dict. -/
inductive WorkoutSummary where
  | empty (period : String × String)
  | full (total_workouts : ℕ) (total_duration_seconds : ℤ)
      (total_duration_hours : ℚ) (avg_duration_minutes : ℚ)
      (workout_types : List (String × TypeStats))
      (heart_rate : Option WorkoutHRBlock)
      (period : String × String)
deriving DecidableEq

/-- Shallow embedding of `get_workout_summary` over the fetched batch. -/
def get_workout_summary (workouts : List Workout) (start_date end_date : String) :
    WorkoutSummary :=
  if workouts.isEmpty then .empty (start_date, end_date)
  else
    let total_duration : ℤ := (workouts.map (fun w => pyOrInt w.duration_seconds 0)).sum
    let hr_values := hrValues workouts
    .full workouts.length total_duration
      (pyRound ((total_duration : ℚ) / 3600) 2)
      (if workouts.isEmpty then 0
       else pyRound ((total_duration : ℚ) / (workouts.length : ℚ) / 60) 1)
      ((sortByCountDesc (typeCounts workouts)).map fun p =>
        (p.1, ⟨p.2, pyRound ((lookupDur (typeDurations workouts) p.1 : ℚ) / 60) 1⟩))
      (if hr_values.isEmpty then none
       else some ⟨if hr_values.isEmpty then none
                  else some (pyRound ((hr_values.sum : ℚ) / (hr_values.length : ℚ)) 1),
                  hr_values.length⟩)
      (start_date, end_date)

/-! ### get_sleep_summary -/

/-- The `stage_totals` accumulator of the sleep-stage aggregation loop. -/
structure StageTotals where
  deep : ℤ
  light : ℤ
  rem : ℤ
  awake : ℤ
deriving DecidableEq

/-- One iteration of the sleep-stage aggregation loop of
`get_sleep_summary`: a session with a truthy `stages` sub-record adds its
four stage fields (absent fields count 0) and is counted. -/
def stageStep (acc : StageTotals × ℕ) (s : SleepSession) : StageTotals × ℕ :=
  match s.stages with
  | some st =>
      (⟨acc.1.deep + pyOrInt st.deep_seconds 0, acc.1.light + pyOrInt st.light_seconds 0,
        acc.1.rem + pyOrInt st.rem_seconds 0, acc.1.awake + pyOrInt st.awake_seconds 0⟩,
       acc.2 + 1)
  | none => acc

/-- The sleep-stage aggregation loop of `get_sleep_summary`: the
`stage_totals` dict and the `sessions_with_stages` counter. -/
def stageFold (main_sleeps : List SleepSession) : StageTotals × ℕ :=
  main_sleeps.foldl stageStep (⟨0, 0, 0, 0⟩, 0)

/-- The main-sleep sessions of a batch: `[s for s in sessions if not s.is_nap]`. -/
def mainSleepsOf (sessions : List SleepSession) : List SleepSession :=
  sessions.filter fun s => !s.is_nap

/-- The naps of a batch: `[s for s in sessions if s.is_nap]`. -/
def napsOf (sessions : List SleepSession) : List SleepSession :=
  sessions.filter fun s => s.is_nap

/-- The `sleep_stages_avg` block of the sleep summary. -/
structure StagesAvg where
  deep_minutes : Option ℚ
  light_minutes : Option ℚ
  rem_minutes : Option ℚ
  awake_minutes : Option ℚ
  deep_percent : Option ℚ
  rem_percent : Option ℚ
deriving DecidableEq

/-- The two return shapes of `get_sleep_summary`: the zero-count empty-input
dict and the populated dict. -/
inductive SleepSummary where
  | empty (period : String × String)
  | full (total_sessions : ℕ) (main_sleep_sessions : ℕ) (naps : ℕ)
      (avg_duration_hours : ℚ) (avg_duration_minutes : ℚ) (total_sleep_hours : ℚ)
      (avg_efficiency_percent : Option ℚ)
      (sleep_stages_avg : Option StagesAvg)
      (period : String × String)
deriving DecidableEq

/-- Shallow embedding of `get_sleep_summary` over the fetched batch. -/
def get_sleep_summary (sessions : List SleepSession) (start_date end_date : String) :
    SleepSummary :=
  let main_sleeps := mainSleepsOf sessions
  let naps := napsOf sessions
  if sessions.isEmpty then .empty (start_date, end_date)
  else
    let total_duration : ℤ := (main_sleeps.map (fun s => pyOrInt s.duration_seconds 0)).sum
    let efficiencies : List ℚ := main_sleeps.filterMap fun s => s.efficiency_percent
    let ft := stageFold main_sleeps
    let stage_totals := ft.1
    let sessions_with_stages := ft.2
    let avg_duration : ℚ :=
      if main_sleeps.isEmpty then 0 else (total_duration : ℚ) / (main_sleeps.length : ℚ)
    let denom : ℤ := stage_totals.deep + stage_totals.light + stage_totals.rem
    .full sessions.length main_sleeps.length naps.length
      (if main_sleeps.isEmpty then 0 else pyRound (avg_duration / 3600) 2)
      (if main_sleeps.isEmpty then 0 else pyRound (avg_duration / 60) 1)
      (pyRound ((total_duration : ℚ) / 3600) 2)
      (if efficiencies.isEmpty then none
       else some (pyRound (efficiencies.sum / (efficiencies.length : ℚ)) 1))
      (if sessions_with_stages ≠ 0 then
        some ⟨
          (if sessions_with_stages ≠ 0 then
            some (pyRound ((stage_totals.deep : ℚ) / (sessions_with_stages : ℚ) / 60) 1)
           else none),
          (if sessions_with_stages ≠ 0 then
            some (pyRound ((stage_totals.light : ℚ) / (sessions_with_stages : ℚ) / 60) 1)
           else none),
          (if sessions_with_stages ≠ 0 then
            some (pyRound ((stage_totals.rem : ℚ) / (sessions_with_stages : ℚ) / 60) 1)
           else none),
          (if sessions_with_stages ≠ 0 then
            some (pyRound ((stage_totals.awake : ℚ) / (sessions_with_stages : ℚ) / 60) 1)
           else none),
          (if 0 < denom then
            some (pyRound ((stage_totals.deep : ℚ) / (denom : ℚ) * 100) 1)
           else none),
          (if 0 < denom then
            some (pyRound ((stage_totals.rem : ℚ) / (denom : ℚ) * 100) 1)
           else none)⟩
       else none)
      (start_date, end_date)

/-! ### get_heart_rate_stats -/

/-- The `hr_values` series of `get_heart_rate_stats`. -/
def hrSeries (data : List Sample) : List ℚ :=
  data.filterMap fun s => if s.type = SeriesType.heart_rate then some s.value else none

/-- The `resting_hr_values` series of `get_heart_rate_stats`. -/
def restingSeries (data : List Sample) : List ℚ :=
  data.filterMap fun s => if s.type = SeriesType.resting_heart_rate then some s.value else none

/-- One min/max/avg sub-block of the heart-rate statistics. -/
structure HRStatsBlock where
  min_bpm : Option ℚ
  max_bpm : Option ℚ
  avg_bpm : Option ℚ
  data_points : ℕ
deriving DecidableEq

/-- The sub-block built for one non-empty value series; `pyMin`/`pyMax`
return `none` exactly on the empty list, matching the code's
`... if hr_values else None` guards. -/
def hrStatsBlock (v : List ℚ) : Option HRStatsBlock :=
  if v.isEmpty then none
  else some ⟨(pyMin v).map (fun m => pyRound m 1),
             (pyMax v).map (fun m => pyRound m 1),
             (if v.isEmpty then none else some (pyRound (v.sum / (v.length : ℚ)) 1)),
             v.length⟩

/-- The two return shapes of `get_heart_rate_stats`: the flat shape used when
both series are empty (`heart_rate: null, resting_heart_rate: null,
data_points: 0`) and the populated shape. -/
inductive HeartRateStats where
  | flatEmpty (period : String × String)
  | stats (heart_rate : Option HRStatsBlock) (resting_heart_rate : Option HRStatsBlock)
      (total_data_points : ℕ) (period : String × String)
deriving DecidableEq

/-- Shallow embedding of `get_heart_rate_stats` over the fetched batch. -/
def get_heart_rate_stats (data : List Sample) (start_date end_date : String) :
    HeartRateStats :=
  let hr_values := hrSeries data
  let resting_hr_values := restingSeries data
  if hr_values.isEmpty && resting_hr_values.isEmpty then .flatEmpty (start_date, end_date)
  else
    .stats (hrStatsBlock hr_values) (hrStatsBlock resting_hr_values)
      (hr_values.length + resting_hr_values.length)
      (start_date, end_date)

/-! ### get_activity_summary -/

/-- The `steps_values` series of `get_activity_summary`. -/
def stepsValues (data : List Sample) : List ℚ :=
  data.filterMap fun s => if s.type = SeriesType.steps then some s.value else none

/-- The `energy_values` series of `get_activity_summary`. -/
def energyValues (data : List Sample) : List ℚ :=
  data.filterMap fun s => if s.type = SeriesType.energy then some s.value else none

/-- The `exercise_values` series of `get_activity_summary`. -/
def exerciseValues (data : List Sample) : List ℚ :=
  data.filterMap fun s => if s.type = SeriesType.exercise_time then some s.value else none

/-- The dates of the steps samples that carry a timestamp:
`s.timestamp.date() for s in data if s.type == steps and s.timestamp`. -/
def stepsDates (data : List Sample) : List ℤ :=
  data.filterMap fun s =>
    if s.type = SeriesType.steps then s.timestamp.map PyDateTime.date else none

/-- The dates of the energy samples that carry a timestamp. -/
def energyDates (data : List Sample) : List ℤ :=
  data.filterMap fun s =>
    if s.type = SeriesType.energy then s.timestamp.map PyDateTime.date else none

/-- The `steps` block of the activity summary. -/
structure StepsBlock where
  total : ℤ
  avg_per_day : ℤ
  data_points : ℕ
deriving DecidableEq

/-- The `energy` block of the activity summary. -/
structure EnergyBlock where
  total_kcal : ℚ
  avg_kcal_per_day : ℚ
  data_points : ℕ
deriving DecidableEq

/-- The `exercise_time` block of the activity summary. -/
structure ExerciseBlock where
  total_minutes : ℚ
  data_points : ℕ
deriving DecidableEq

/-- The single return shape of `get_activity_summary`; each per-type block is
`none` when that series had no samples. -/
structure ActivitySummary where
  steps : Option StepsBlock
  energy : Option EnergyBlock
  exercise_time : Option ExerciseBlock
  period : String × String
deriving DecidableEq

/-- Shallow embedding of `get_activity_summary` over the fetched batch.
`set(...)` sizes are modelled as `List.dedup.length`. -/
def get_activity_summary (data : List Sample) (start_date end_date : String) :
    ActivitySummary :=
  let steps_values := stepsValues data
  let energy_values := energyValues data
  let exercise_values := exerciseValues data
  { steps :=
      if steps_values.isEmpty then none
      else some
        { total := if steps_values.isEmpty then 0 else pyInt steps_values.sum
          avg_per_day :=
            if steps_values.isEmpty then 0
            else pyInt (steps_values.sum / ((max 1 (stepsDates data).dedup.length : ℕ) : ℚ))
          data_points := steps_values.length }
    energy :=
      if energy_values.isEmpty then none
      else some
        { total_kcal := if energy_values.isEmpty then 0 else pyRound energy_values.sum 1
          avg_kcal_per_day :=
            if energy_values.isEmpty then 0
            else pyRound (energy_values.sum / ((max 1 (energyDates data).dedup.length : ℕ) : ℚ)) 1
          data_points := energy_values.length }
    exercise_time :=
      if exercise_values.isEmpty then none
      else some
        { total_minutes := if exercise_values.isEmpty then 0 else pyRound exercise_values.sum 1
          data_points := exercise_values.length }
    period := (start_date, end_date) }

/-! ### get_timeseries (validation prefix, timeseries.py) -/

/-- A stand-in for `uuid.UUID`; only parse success or failure is observable. -/
structure UUIDv where
  val : ℕ
deriving DecidableEq

/-- The exceptions the validation prefix of `get_timeseries` can raise:
`ValueError` from `datetime.fromisoformat` and from `UUID(user_id)`. -/
inductive PyError where
  | dateParseError
  | uuidParseError
deriving DecidableEq

/-- The outcome of `get_timeseries` past validation: either the structured
"no valid series types" notice, or the response built from one fetch. -/
inductive TsReturn (α : Type) where
  | notice
  | result (r : α)
deriving DecidableEq

/-- Shallow embedding of the validation-and-dispatch prefix of
`get_timeseries`: parse the two datetimes (raising on failure), drop the
requested series-type names that do not parse, return the notice if none
remain, otherwise parse the user id as a UUID and perform the single fetch
with the limit clamped to 1000.  The parsers and the record-source fetch are
external collaborators, passed as functions. -/
def get_timeseries {α : Type}
    (parseDT : String → Option PyDateTime) (parseUUID : String → Option UUIDv)
    (parseSeries : String → Option SeriesType)
    (fetch : UUIDv → List SeriesType → PyDateTime → PyDateTime → ℤ → α)
    (user_id : String) (series_types : List String)
    (start_datetime end_datetime : String) (limit : ℤ) :
    Except PyError (TsReturn α) :=
  match parseDT start_datetime with
  | none => .error .dateParseError
  | some start_dt =>
    match parseDT end_datetime with
    | none => .error .dateParseError
    | some end_dt =>
      let types := series_types.filterMap parseSeries
      if types.isEmpty then .ok .notice
      else
        match parseUUID user_id with
        | none => .error .uuidParseError
        | some uid => .ok (.result (fetch uid types start_dt end_dt (min limit 1000)))

/-! ### Accessors on the result shapes -/

/-- The echoed `period` field of a workout summary, on either shape. -/
def WorkoutSummary.periodOf : WorkoutSummary → String × String
  | .empty p => p
  | .full _ _ _ _ _ _ p => p

/-- The `workout_types` breakdown of a workout summary (empty shape: `{}`). -/
def WorkoutSummary.workoutTypes : WorkoutSummary → List (String × TypeStats)
  | .empty _ => []
  | .full _ _ _ _ wt _ _ => wt

/-- The `heart_rate` block of a workout summary, when the shape carries one. -/
def WorkoutSummary.heartRate : WorkoutSummary → Option WorkoutHRBlock
  | .empty _ => none
  | .full _ _ _ _ _ hr _ => hr

/-- The `total_duration_hours` field of a workout summary (empty shape: 0). -/
def WorkoutSummary.totalDurationHours : WorkoutSummary → ℚ
  | .empty _ => 0
  | .full _ _ th _ _ _ _ => th

/-- The echoed `period` field of a sleep summary, on either shape. -/
def SleepSummary.periodOf : SleepSummary → String × String
  | .empty p => p
  | .full _ _ _ _ _ _ _ _ p => p

/-- The `sleep_stages_avg` block of a sleep summary, when present. -/
def SleepSummary.stagesAvg : SleepSummary → Option StagesAvg
  | .empty _ => none
  | .full _ _ _ _ _ _ _ st _ => st

/-- The echoed `period` field of the heart-rate statistics, on either shape. -/
def HeartRateStats.periodOf : HeartRateStats → String × String
  | .flatEmpty p => p
  | .stats _ _ _ p => p

/-! ### Spec-side formulations used by the claim statements -/

/-- The stages sub-records carried by a list of sessions, in order. -/
def carriedStages (l : List SleepSession) : List SleepStages :=
  l.filterMap SleepSession.stages

/-- Total deep seconds over the carried stage records. -/
def deepSum (l : List SleepSession) : ℤ :=
  ((carriedStages l).map fun st => pyOrInt st.deep_seconds 0).sum

/-- Total light seconds over the carried stage records. -/
def lightSum (l : List SleepSession) : ℤ :=
  ((carriedStages l).map fun st => pyOrInt st.light_seconds 0).sum

/-- Total REM seconds over the carried stage records. -/
def remSum (l : List SleepSession) : ℤ :=
  ((carriedStages l).map fun st => pyOrInt st.rem_seconds 0).sum

/-- Total awake seconds over the carried stage records. -/
def awakeSum (l : List SleepSession) : ℤ :=
  ((carriedStages l).map fun st => pyOrInt st.awake_seconds 0).sum

/-- The set of distinct calendar dates among the timestamped steps samples. -/
def stepsDateSet (data : List Sample) : Finset ℤ :=
  (stepsDates data).toFinset

/-- The set of distinct calendar dates among the timestamped energy samples. -/
def energyDateSet (data : List Sample) : Finset ℤ :=
  (energyDates data).toFinset

/-- A rational is an exact 1-decimal value (an integer multiple of 1/10). -/
def roundedTo1 (q : ℚ) : Prop := (q * 10).den = 1

/-- A rational is an exact 2-decimal value (an integer multiple of 1/100). -/
def roundedTo2 (q : ℚ) : Prop := (q * 100).den = 1

/-- Lift `roundedTo1` to an optional field; a `null` field is vacuously fine. -/
def roundedTo1Opt : Option ℚ → Prop
  | none => True
  | some q => roundedTo1 q

instance (q : ℚ) : Decidable (roundedTo1 q) :=
  inferInstanceAs (Decidable ((q * 10).den = 1))

instance (q : ℚ) : Decidable (roundedTo2 q) :=
  inferInstanceAs (Decidable ((q * 100).den = 1))

/-- Field-by-field rounding granularity of a workout summary: minute-valued
averages at 1 decimal, the hour-valued total at 2 decimals. -/
def WorkoutSummary.roundingShape : WorkoutSummary → Prop
  | .empty _ => True
  | .full _ _ th ad wt hr _ =>
      roundedTo2 th ∧ roundedTo1 ad ∧
      (∀ p ∈ wt, roundedTo1 p.2.total_duration_minutes) ∧
      (match hr with
       | none => True
       | some b => roundedTo1Opt b.avg_across_workouts)

/-- Field-by-field rounding granularity of a sleep summary: minute and
percent fields at 1 decimal, the two hour-valued fields at 2 decimals. -/
def SleepSummary.roundingShape : SleepSummary → Prop
  | .empty _ => True
  | .full _ _ _ ah am th eff st _ =>
      roundedTo2 ah ∧ roundedTo1 am ∧ roundedTo2 th ∧ roundedTo1Opt eff ∧
      (match st with
       | none => True
       | some b =>
          roundedTo1Opt b.deep_minutes ∧ roundedTo1Opt b.light_minutes ∧
          roundedTo1Opt b.rem_minutes ∧ roundedTo1Opt b.awake_minutes ∧
          roundedTo1Opt b.deep_percent ∧ roundedTo1Opt b.rem_percent)

/-- Field-by-field rounding granularity of the heart-rate statistics: every
derived field at 1 decimal. -/
def HeartRateStats.roundingShape : HeartRateStats → Prop
  | .flatEmpty _ => True
  | .stats hr rhr _ _ =>
      (match hr with
       | none => True
       | some b => roundedTo1Opt b.min_bpm ∧ roundedTo1Opt b.max_bpm ∧ roundedTo1Opt b.avg_bpm) ∧
      (match rhr with
       | none => True
       | some b => roundedTo1Opt b.min_bpm ∧ roundedTo1Opt b.max_bpm ∧ roundedTo1Opt b.avg_bpm)

/-- Field-by-field rounding granularity of the activity summary: the energy
and exercise fields at 1 decimal; the steps fields are integers by type. -/
def ActivitySummary.roundingShape (a : ActivitySummary) : Prop :=
  (match a.energy with
   | none => True
   | some b => roundedTo1 b.total_kcal ∧ roundedTo1 b.avg_kcal_per_day) ∧
  (match a.exercise_time with
   | none => True
   | some b => roundedTo1 b.total_minutes)

/-! ### Concrete inputs used by witnesses and counterexamples -/

/-- A single main sleep whose stages carry deep=1000s, light=2000s,
rem=1000s, awake=500s (the worked example of the spec). -/
def sleepStageExample : List SleepSession :=
  [⟨none, none, false, some ⟨some 1000, some 2000, some 1000, some 500⟩⟩]

/-- Workouts of types A times 3, B times 5, C times 1, interleaved. -/
def workoutMixExample : List Workout :=
  [⟨some "B", some 300, none⟩, ⟨some "A", some 600, none⟩, ⟨some "B", some 300, none⟩,
   ⟨some "C", some 100, none⟩, ⟨some "B", some 300, none⟩, ⟨some "A", some 600, none⟩,
   ⟨some "B", some 300, none⟩, ⟨some "A", some 600, none⟩, ⟨some "B", some 300, none⟩]

/-- Steps samples of values 100 and 300 on one date and 500 on another
(the worked example of the spec). -/
def stepsTwoDayExample : List Sample :=
  [⟨.steps, 100, some ⟨0⟩⟩, ⟨.steps, 300, some ⟨0⟩⟩, ⟨.steps, 500, some ⟨1⟩⟩]

/-- Steps samples summing to 901 over two distinct dates, so that the exact
per-day quotient 450.5 is not an integer. -/
def stepsOddSumExample : List Sample :=
  [⟨.steps, 100, some ⟨0⟩⟩, ⟨.steps, 301, some ⟨0⟩⟩, ⟨.steps, 500, some ⟨1⟩⟩]

/-- Two heart-rate samples and no resting-heart-rate samples. -/
def hrOnlyExample : List Sample :=
  [⟨.heart_rate, 60, none⟩, ⟨.heart_rate, 80, none⟩]

/-- One workout of 4530 seconds, whose duration in hours rounds to 1.26. -/
def hoursExample : List Workout :=
  [⟨some "run", some 4530, none⟩]

/-- Workouts whose heart-rate fields are only 0 or absent. -/
def zeroHRExample : List Workout :=
  [⟨some "run", some 600, some 0⟩, ⟨some "walk", some 300, none⟩]

/-- A datetime parser that accepts every string. -/
def dtAlways : String → Option PyDateTime := fun _ => some ⟨0⟩

/-- A datetime parser that rejects every string. -/
def dtNever : String → Option PyDateTime := fun _ => none

/-- A UUID parser that rejects every string. -/
def uuidNever : String → Option UUIDv := fun _ => none

/-- A UUID parser that accepts every string. -/
def uuidAlways : String → Option UUIDv := fun _ => some ⟨0⟩

/-- A trivial record-source fetch used to instantiate the theorems. -/
def fetchConst : UUIDv → List SeriesType → PyDateTime → PyDateTime → ℤ → ℕ :=
  fun _ _ _ _ _ => 0

/-- The sleep-percentage denominator: deep+light+rem seconds, awake
excluded. -/
def nremSum (l : List SleepSession) : ℤ := deepSum l + lightSum l + remSum l

/-! ### General lemmas about the Python primitives -/

/-- Rounding at one decimal digit produces an exact 1-decimal value. -/
theorem roundedTo1_pyRound (q : ℚ) : roundedTo1 (pyRound q 1) := by
  unfold roundedTo1 pyRound
  rw [pow_one, div_mul_cancel₀]
  · exact Rat.den_intCast _
  · norm_num

/-- Rounding at two decimal digits produces an exact 2-decimal value. -/
theorem roundedTo2_pyRound (q : ℚ) : roundedTo2 (pyRound q 2) := by
  unfold roundedTo2 pyRound
  rw [show ((10 : ℚ) ^ 2) = 100 by norm_num, div_mul_cancel₀]
  · exact Rat.den_intCast _
  · norm_num

/-- The fold computing Python `min` is bounded by its initial value. -/
theorem foldl_min_le_init (t : List ℚ) : ∀ a, t.foldl min a ≤ a := by
  induction t with
  | nil => intro a; exact le_refl a
  | cons h t ih => intro a; exact le_trans (ih (min a h)) (min_le_left a h)

/-- The fold computing Python `min` is bounded by every list element. -/
theorem foldl_min_le_mem (t : List ℚ) : ∀ a x, x ∈ t → t.foldl min a ≤ x := by
  induction t with
  | nil => intro a x hx; cases hx
  | cons h t ih =>
    intro a x hx
    rcases List.mem_cons.mp hx with rfl | hx
    · exact le_trans (foldl_min_le_init t (min a x)) (min_le_right a x)
    · exact ih (min a h) x hx

/-- The fold computing Python `min` returns one of its inputs. -/
theorem foldl_min_mem (t : List ℚ) : ∀ a, t.foldl min a ∈ a :: t := by
  induction t with
  | nil => intro a; exact List.mem_singleton.mpr rfl
  | cons h t ih =>
    intro a
    rw [List.foldl_cons]
    rcases List.mem_cons.mp (ih (min a h)) with heq | hmem
    · rw [heq]
      rcases min_choice a h with h1 | h1 <;> rw [h1] <;> simp
    · exact List.mem_cons_of_mem a (List.mem_cons_of_mem h hmem)

/-- The fold computing Python `max` dominates its initial value. -/
theorem foldl_max_ge_init (t : List ℚ) : ∀ a, a ≤ t.foldl max a := by
  induction t with
  | nil => intro a; exact le_refl a
  | cons h t ih => intro a; exact le_trans (le_max_left a h) (ih (max a h))

/-- The fold computing Python `max` dominates every list element. -/
theorem foldl_max_ge_mem (t : List ℚ) : ∀ a x, x ∈ t → x ≤ t.foldl max a := by
  induction t with
  | nil => intro a x hx; cases hx
  | cons h t ih =>
    intro a x hx
    rcases List.mem_cons.mp hx with rfl | hx
    · exact le_trans (le_max_right a x) (foldl_max_ge_init t (max a x))
    · exact ih (max a h) x hx

/-- The fold computing Python `max` returns one of its inputs. -/
theorem foldl_max_mem (t : List ℚ) : ∀ a, t.foldl max a ∈ a :: t := by
  induction t with
  | nil => intro a; exact List.mem_singleton.mpr rfl
  | cons h t ih =>
    intro a
    rw [List.foldl_cons]
    rcases List.mem_cons.mp (ih (max a h)) with heq | hmem
    · rw [heq]
      rcases max_choice a h with h1 | h1 <;> rw [h1] <;> simp
    · exact List.mem_cons_of_mem a (List.mem_cons_of_mem h hmem)

/-! ### Characterization of the sleep-stage fold -/

/-- The sleep-stage loop, run from any accumulator, adds the four stage sums
and the number of sessions carrying a stages sub-record. -/
theorem foldl_stageStep (l : List SleepSession) : ∀ init : StageTotals × ℕ,
    l.foldl stageStep init =
      (⟨init.1.deep + deepSum l, init.1.light + lightSum l,
        init.1.rem + remSum l, init.1.awake + awakeSum l⟩,
       init.2 + (carriedStages l).length) := by
  induction l with
  | nil =>
    intro init
    simp [deepSum, lightSum, remSum, awakeSum, carriedStages]
  | cons s t ih =>
    intro init
    rw [List.foldl_cons, ih (stageStep init s)]
    cases hs : s.stages with
    | none =>
      simp [stageStep, hs, deepSum, lightSum, remSum, awakeSum, carriedStages,
        List.filterMap_cons]
    | some st =>
      simp only [stageStep, hs, deepSum, lightSum, remSum, awakeSum, carriedStages,
        List.filterMap_cons, List.map_cons, List.sum_cons, List.length_cons,
        Prod.mk.injEq, StageTotals.mk.injEq]
      refine ⟨⟨?_, ?_, ?_, ?_⟩, ?_⟩ <;> ring

/-- The `stage_totals` dict and session counter equal the spec-side sums. -/
theorem stageFold_eq (l : List SleepSession) :
    stageFold l =
      (⟨deepSum l, lightSum l, remSum l, awakeSum l⟩, (carriedStages l).length) := by
  have h := foldl_stageStep l (⟨0, 0, 0, 0⟩, 0)
  simpa [stageFold] using h

/-! ### Evaluation lemmas for the rounding primitives -/

/-- The embedded integer-part computation agrees with the floor. -/
theorem ratFloor_eq_floor (q : ℚ) : ratFloor q = ⌊q⌋ := by
  rw [Rat.floor_def]
  exact Int.fdiv_eq_ediv q.num (Int.natCast_nonneg _)

/-- Round-half-even evaluates below the halfway point. -/
theorem roundHalfEven_eq_of_lt (q : ℚ) (z : ℤ) (h1 : (z : ℚ) ≤ q) (h2 : q - z < 1 / 2) :
    roundHalfEven q = z := by
  have hf : ⌊q⌋ = z := Int.floor_eq_iff.mpr ⟨h1, by linarith⟩
  simp only [roundHalfEven, ratFloor_eq_floor, hf]
  rw [if_pos h2]

/-- Round-half-even evaluates above the halfway point. -/
theorem roundHalfEven_eq_of_gt (q : ℚ) (z : ℤ) (h1 : q ≤ (z : ℚ)) (h2 : (z : ℚ) - q < 1 / 2) :
    roundHalfEven q = z := by
  rcases eq_or_lt_of_le h1 with heq | hlt
  · exact roundHalfEven_eq_of_lt q z (le_of_eq heq.symm) (by rw [← heq]; norm_num)
  · have hf : ⌊q⌋ = z - 1 := by
      refine Int.floor_eq_iff.mpr ⟨?_, ?_⟩ <;> push_cast <;> linarith
    simp only [roundHalfEven, ratFloor_eq_floor, hf]
    have hr : ¬(q - ((z - 1 : ℤ) : ℚ) < 1 / 2) := by push_cast; linarith
    have hr2 : (1 : ℚ) / 2 < q - ((z - 1 : ℤ) : ℚ) := by push_cast; linarith
    rw [if_neg hr, if_pos hr2]
    omega

/-- Evaluation of `pyRound` when the scaled value sits below a half. -/
theorem pyRound_eq_of_lt (q : ℚ) (n : ℕ) (z : ℤ)
    (h1 : (z : ℚ) ≤ q * 10 ^ n) (h2 : q * 10 ^ n - z < 1 / 2) :
    pyRound q n = (z : ℚ) / 10 ^ n := by
  unfold pyRound
  rw [roundHalfEven_eq_of_lt _ z h1 h2]

/-- Evaluation of `pyRound` when the scaled value sits above a half. -/
theorem pyRound_eq_of_gt (q : ℚ) (n : ℕ) (z : ℤ)
    (h1 : q * 10 ^ n ≤ (z : ℚ)) (h2 : (z : ℚ) - q * 10 ^ n < 1 / 2) :
    pyRound q n = (z : ℚ) / 10 ^ n := by
  unfold pyRound
  rw [roundHalfEven_eq_of_gt _ z h1 h2]

/-- On nonnegative rationals, Python `int` truncation is the floor. -/
theorem pyInt_eq_floor (q : ℚ) (h : 0 ≤ q) : pyInt q = ⌊q⌋ := by
  unfold pyInt
  rw [Rat.floor_def]
  exact Int.tdiv_eq_ediv (Rat.num_nonneg.mpr h) (Int.natCast_nonneg _)

/-- Evaluation of `pyInt` on a nonnegative rational. -/
theorem pyInt_eval (q : ℚ) (z : ℤ) (h0 : 0 ≤ (z : ℚ)) (h1 : (z : ℚ) ≤ q) (h2 : q < z + 1) :
    pyInt q = z := by
  rw [pyInt_eq_floor q (le_trans h0 h1)]
  exact Int.floor_eq_iff.mpr ⟨h1, h2⟩

/-! ### Claim C7: empty input yields the documented zero shape, never raises -/

/-- C7: for the empty fetched record list, each of the four summary
functions returns its documented zero/null shape.  The embedded functions
are total Lean functions, so no exception path exists on empty input. -/
theorem C7_empty_input_zero_shapes (s e : String) :
    get_workout_summary [] s e = .empty (s, e) ∧
    get_sleep_summary [] s e = .empty (s, e) ∧
    get_heart_rate_stats [] s e = .flatEmpty (s, e) ∧
    get_activity_summary [] s e = ⟨none, none, none, (s, e)⟩ := by
  refine ⟨rfl, rfl, rfl, rfl⟩

/-! ### Claim C8: the period field echoes the caller's literal strings -/

/-- C8: on every return path of the four summary tools, the echoed `period`
field is exactly the pair of original `start_date`/`end_date` argument
strings; no reformatting happens on any branch. -/
theorem C8_period_echoes_input_strings (s e : String) :
    (∀ workouts : List Workout, (get_workout_summary workouts s e).periodOf = (s, e)) ∧
    (∀ sessions : List SleepSession, (get_sleep_summary sessions s e).periodOf = (s, e)) ∧
    (∀ data : List Sample, (get_heart_rate_stats data s e).periodOf = (s, e)) ∧
    (∀ data : List Sample, (get_activity_summary data s e).period = (s, e)) := by
  refine ⟨?_, ?_, ?_, ?_⟩
  · intro workouts; cases workouts <;> rfl
  · intro sessions; cases sessions <;> rfl
  · intro data
    by_cases h : ((hrSeries data).isEmpty && (restingSeries data).isEmpty) = true
    · simp [get_heart_rate_stats, h, HeartRateStats.periodOf]
    · simp [get_heart_rate_stats, h, HeartRateStats.periodOf]
  · intro data; rfl

/-! ### Claim C1: sleep stage percentages -/

/-- C1: when at least one main-sleep session carries a stages sub-record,
the `sleep_stages_avg` block is present, and its `deep_percent` and
`rem_percent` are the stage's summed seconds divided by the summed
deep+light+rem seconds (awake excluded from the denominator), times 100,
rounded to 1 decimal; both are `null` when that denominator is 0. -/
theorem C1_sleep_stage_percentages (sessions : List SleepSession) (s e : String)
    (hne : carriedStages (mainSleepsOf sessions) ≠ []) :
    ∃ block, (get_sleep_summary sessions s e).stagesAvg = some block ∧
      (nremSum (mainSleepsOf sessions) = 0 →
        block.deep_percent = none ∧ block.rem_percent = none) ∧
      (0 < nremSum (mainSleepsOf sessions) →
        block.deep_percent =
          some (pyRound ((deepSum (mainSleepsOf sessions) : ℚ)
            / ((nremSum (mainSleepsOf sessions) : ℤ) : ℚ) * 100) 1) ∧
        block.rem_percent =
          some (pyRound ((remSum (mainSleepsOf sessions) : ℚ)
            / ((nremSum (mainSleepsOf sessions) : ℤ) : ℚ) * 100) 1)) := by
  have hsne : sessions ≠ [] := by
    intro h
    rw [h] at hne
    exact hne rfl
  rcases List.exists_cons_of_ne_nil hsne with ⟨s0, t0, rfl⟩
  have hlen : (carriedStages (mainSleepsOf (s0 :: t0))).length ≠ 0 := by
    intro h
    exact hne (List.length_eq_zero.mp h)
  simp only [get_sleep_summary, SleepSummary.stagesAvg, stageFold_eq, List.isEmpty_cons,
    Bool.false_eq_true, if_false]
  rw [if_pos hlen]
  refine ⟨_, rfl, ?_, ?_⟩
  · intro h0
    have hnot : ¬(0 < deepSum (mainSleepsOf (s0 :: t0)) + lightSum (mainSleepsOf (s0 :: t0))
        + remSum (mainSleepsOf (s0 :: t0))) := by
      rw [← nremSum, h0]
      exact lt_irrefl 0
    constructor <;> simp [hnot]
  · intro hpos
    have hpos' : 0 < deepSum (mainSleepsOf (s0 :: t0)) + lightSum (mainSleepsOf (s0 :: t0))
        + remSum (mainSleepsOf (s0 :: t0)) := by
      rw [← nremSum]
      exact hpos
    constructor <;> simp [hpos', nremSum]

/-- C1 witness: on the spec's worked example (deep=1000s, light=2000s,
rem=1000s, awake=500s in one main sleep), the hypothesis holds and the
percentages evaluate to 25.0 and 25.0. -/
theorem C1_sleep_stage_percentages_witness :
    (carriedStages (mainSleepsOf sleepStageExample) ≠ [] ∧
      0 < nremSum (mainSleepsOf sleepStageExample)) ∧
    (∃ block,
      (get_sleep_summary sleepStageExample "2024-01-01" "2024-01-31").stagesAvg = some block ∧
      block.deep_percent = some 25 ∧ block.rem_percent = some 25) := by
  refine ⟨⟨by decide, by decide⟩, ?_⟩
  obtain ⟨block, hb, _, hpos⟩ :=
    C1_sleep_stage_percentages sleepStageExample "2024-01-01" "2024-01-31" (by decide)
  obtain ⟨hd, hr⟩ := hpos (by decide)
  have e1 : deepSum (mainSleepsOf sleepStageExample) = 1000 := by decide
  have e2 : remSum (mainSleepsOf sleepStageExample) = 1000 := by decide
  have e3 : nremSum (mainSleepsOf sleepStageExample) = 4000 := by decide
  refine ⟨block, hb, ?_, ?_⟩
  · rw [hd, e1, e3, pyRound_eq_of_lt _ _ 250 (by norm_num) (by norm_num)]
    norm_num
  · rw [hr, e2, e3, pyRound_eq_of_lt _ _ 250 (by norm_num) (by norm_num)]
    norm_num

/-! ### Claim C4: heart-rate statistics shapes -/

/-- An empty series yields a null sub-block. -/
theorem hrStatsBlock_nil : hrStatsBlock [] = none := rfl

/-- The sub-block built for a non-empty series carries the true minimum and
maximum of the series and the mean, each rounded to 1 decimal. -/
theorem hrStatsBlock_spec (v : List ℚ) (hv : v ≠ []) :
    ∃ b, hrStatsBlock v = some b ∧
      (∃ m, m ∈ v ∧ (∀ x ∈ v, m ≤ x) ∧ b.min_bpm = some (pyRound m 1)) ∧
      (∃ M, M ∈ v ∧ (∀ x ∈ v, x ≤ M) ∧ b.max_bpm = some (pyRound M 1)) ∧
      b.avg_bpm = some (pyRound (v.sum / (v.length : ℚ)) 1) ∧
      b.data_points = v.length := by
  rcases List.exists_cons_of_ne_nil hv with ⟨a, t, rfl⟩
  refine ⟨_, rfl, ⟨t.foldl min a, foldl_min_mem t a, ?_, rfl⟩,
    ⟨t.foldl max a, foldl_max_mem t a, ?_, rfl⟩, rfl, rfl⟩
  · intro x hx
    rcases List.mem_cons.mp hx with rfl | hx
    · exact foldl_min_le_init t x
    · exact foldl_min_le_mem t a x hx
  · intro x hx
    rcases List.mem_cons.mp hx with rfl | hx
    · exact foldl_max_ge_init t x
    · exact foldl_max_ge_mem t a x hx

/-- C4: with zero samples of both heart-rate series the result is the single
flat shape (both blocks null, 0 data points); with exactly one series empty,
only that series' block is null while the other carries min, max and mean
rounded to 1 decimal. -/
theorem C4_heart_rate_stats_shapes :
    (∀ (data : List Sample) (s e : String),
      hrSeries data = [] → restingSeries data = [] →
        get_heart_rate_stats data s e = .flatEmpty (s, e)) ∧
    (∀ (data : List Sample) (s e : String),
      hrSeries data ≠ [] → restingSeries data = [] →
        ∃ b, get_heart_rate_stats data s e =
            .stats (some b) none (hrSeries data).length (s, e) ∧
          (∃ m, m ∈ hrSeries data ∧ (∀ x ∈ hrSeries data, m ≤ x) ∧
            b.min_bpm = some (pyRound m 1)) ∧
          (∃ M, M ∈ hrSeries data ∧ (∀ x ∈ hrSeries data, x ≤ M) ∧
            b.max_bpm = some (pyRound M 1)) ∧
          b.avg_bpm = some (pyRound ((hrSeries data).sum / ((hrSeries data).length : ℚ)) 1) ∧
          b.data_points = (hrSeries data).length) ∧
    (∀ (data : List Sample) (s e : String),
      hrSeries data = [] → restingSeries data ≠ [] →
        ∃ b, get_heart_rate_stats data s e =
            .stats none (some b) (restingSeries data).length (s, e) ∧
          (∃ m, m ∈ restingSeries data ∧ (∀ x ∈ restingSeries data, m ≤ x) ∧
            b.min_bpm = some (pyRound m 1)) ∧
          (∃ M, M ∈ restingSeries data ∧ (∀ x ∈ restingSeries data, x ≤ M) ∧
            b.max_bpm = some (pyRound M 1)) ∧
          b.avg_bpm =
            some (pyRound ((restingSeries data).sum / ((restingSeries data).length : ℚ)) 1) ∧
          b.data_points = (restingSeries data).length) := by
  refine ⟨?_, ?_, ?_⟩
  · intro data s e h1 h2
    simp [get_heart_rate_stats, h1, h2]
  · intro data s e h1 h2
    obtain ⟨b, hb, hmin, hmax, havg, hpts⟩ := hrStatsBlock_spec (hrSeries data) h1
    refine ⟨b, ?_, hmin, hmax, havg, hpts⟩
    have hf : (hrSeries data).isEmpty = false := by
      rw [Bool.eq_false_iff]
      intro hc
      exact h1 (List.isEmpty_iff.mp hc)
    simp [get_heart_rate_stats, hf, h2, hb, hrStatsBlock_nil]
  · intro data s e h1 h2
    obtain ⟨b, hb, hmin, hmax, havg, hpts⟩ := hrStatsBlock_spec (restingSeries data) h2
    refine ⟨b, ?_, hmin, hmax, havg, hpts⟩
    have hf : (restingSeries data).isEmpty = false := by
      rw [Bool.eq_false_iff]
      intro hc
      exact h2 (List.isEmpty_iff.mp hc)
    simp [get_heart_rate_stats, hf, h1, hb, hrStatsBlock_nil]

/-- C4 witness: two heart-rate samples (60 and 80 bpm) and no resting
samples give a populated heart-rate block (min 60, max 80, mean 70) beside a
null resting block. -/
theorem C4_heart_rate_stats_shapes_witness :
    (hrSeries hrOnlyExample ≠ [] ∧ restingSeries hrOnlyExample = []) ∧
    ∃ b, get_heart_rate_stats hrOnlyExample "2024-01-01" "2024-01-31" =
        .stats (some b) none 2 ("2024-01-01", "2024-01-31") ∧
      b.min_bpm = some 60 ∧ b.max_bpm = some 80 ∧ b.avg_bpm = some 70 := by
  have hs : hrSeries hrOnlyExample = [60, 80] := by
    simp [hrSeries, hrOnlyExample]
  refine ⟨⟨by simp [hs], by simp [restingSeries, hrOnlyExample]⟩, ?_⟩
  obtain ⟨b, hb, ⟨m, hm, hml, hmin⟩, ⟨M, hM, hMg, hmax⟩, havg, _⟩ :=
    C4_heart_rate_stats_shapes.2.1 hrOnlyExample "2024-01-01" "2024-01-31"
      (by simp [hs]) (by simp [restingSeries, hrOnlyExample])
  rw [hs] at hb hm hml hM hMg havg
  have hm60 : m = 60 := by
    rcases (by simpa using hm : m = 60 ∨ m = 80) with rfl | rfl
    · rfl
    · exact absurd (hml 60 (by simp)) (by norm_num)
  have hM80 : M = 80 := by
    rcases (by simpa using hM : M = 60 ∨ M = 80) with rfl | rfl
    · exact absurd (hMg 80 (by simp)) (by norm_num)
    · rfl
  subst hm60 hM80
  refine ⟨b, by simpa using hb, ?_, ?_, ?_⟩
  · rw [hmin, pyRound_eq_of_lt _ _ 600 (by norm_num) (by norm_num)]
    norm_num
  · rw [hmax, pyRound_eq_of_lt _ _ 800 (by norm_num) (by norm_num)]
    norm_num
  · rw [havg]
    norm_num
    rw [pyRound_eq_of_lt _ _ 700 (by norm_num) (by norm_num)]
    norm_num

/-! ### Claim C9: a zero avg_heart_rate_bpm is treated like an absent one -/

/-- C9: the heart-rate filter tests truthiness, so a workout whose
`avg_heart_rate_bpm` is 0 yields exactly the same summary as the same
workout with the field absent, and when every workout's field is 0 or
absent the whole `heart_rate` block is null (on the populated shape). -/
theorem C9_zero_hr_like_absent :
    (∀ (l₁ l₂ : List Workout) (w : Workout) (s e : String),
      w.avg_heart_rate_bpm = some 0 →
        get_workout_summary (l₁ ++ w :: l₂) s e =
          get_workout_summary (l₁ ++ { w with avg_heart_rate_bpm := none } :: l₂) s e) ∧
    (∀ (workouts : List Workout) (s e : String), workouts ≠ [] →
      (∀ w ∈ workouts, w.avg_heart_rate_bpm = none ∨ w.avg_heart_rate_bpm = some 0) →
        (get_workout_summary workouts s e).heartRate = none ∧
        (∀ p, get_workout_summary workouts s e ≠ .empty p)) := by
  constructor
  · intro l₁ l₂ w s e hw
    obtain ⟨t, d, h⟩ := w
    simp only [Workout.avg_heart_rate_bpm] at hw
    subst hw
    simp [get_workout_summary, typeCounts, typeDurations, hrValues, wtypeOf,
      List.map_append, List.foldl_append, List.filterMap_append]
  · intro workouts s e hne hall
    rcases List.exists_cons_of_ne_nil hne with ⟨w0, t0, rfl⟩
    have hhr : hrValues (w0 :: t0) = [] := by
      rw [hrValues, List.filterMap_eq_nil_iff]
      intro a ha
      rcases hall a ha with h | h <;> simp [h]
    constructor
    · simp [get_workout_summary, hhr, WorkoutSummary.heartRate]
    · intro p
      simp [get_workout_summary, hhr]

/-- C9 witness: on workouts whose heart-rate fields are 0 and absent, the
populated summary carries a null `heart_rate` block. -/
theorem C9_zero_hr_like_absent_witness :
    (zeroHRExample ≠ [] ∧
      ∀ w ∈ zeroHRExample, w.avg_heart_rate_bpm = none ∨ w.avg_heart_rate_bpm = some 0) ∧
    (get_workout_summary zeroHRExample "2024-01-01" "2024-01-31").heartRate = none :=
  ⟨⟨by decide, by decide⟩,
    ((C9_zero_hr_like_absent).2 zeroHRExample "2024-01-01" "2024-01-31"
      (by decide) (by decide)).1⟩

/-! ### Claim C5: rounding granularity -/

/-- Zero is an exact 1-decimal value. -/
theorem roundedTo1_zero : roundedTo1 0 := by
  unfold roundedTo1
  rw [zero_mul]
  rfl

/-- Zero is an exact 2-decimal value. -/
theorem roundedTo2_zero : roundedTo2 0 := by
  unfold roundedTo2
  rw [zero_mul]
  rfl

/-- C5 counterexample: the claim says every derived field is rounded to
exactly 1 decimal place and names `total_duration_hours`; but for a single
workout of 4530 seconds that field is `round(4530/3600, 2) = 1.26`, which is
not an integer multiple of 0.1. -/
theorem C5_counterexample :
    ¬ roundedTo1
      ((get_workout_summary hoursExample "2024-01-01" "2024-01-31").totalDurationHours) := by
  have hv : (get_workout_summary hoursExample "2024-01-01" "2024-01-31").totalDurationHours =
      pyRound ((4530 : ℚ) / 3600) 2 := by
    simp [get_workout_summary, hoursExample, WorkoutSummary.totalDurationHours, pyOrInt]
  rw [hv, pyRound_eq_of_gt _ _ 126 (by norm_num) (by norm_num)]
  intro hcon
  unfold roundedTo1 at hcon
  have h1 : ((((126 : ℤ) : ℚ) / 10 ^ 2) * 10) = 63 / 5 := by norm_num
  rw [h1] at hcon
  have h2 : ((63 / 5 : ℚ).num : ℚ) = 63 / 5 := (Rat.den_eq_one_iff _).mp hcon
  have h3 : (5 : ℚ) * ((63 / 5 : ℚ).num : ℚ) = 63 := by rw [h2]; norm_num
  have h4 : (5 : ℤ) * (63 / 5 : ℚ).num = 63 := by exact_mod_cast h3
  omega

/-- C5 amended: every derived rational field is an exact 1-decimal value
except the three hour-denominated fields (`total_duration_hours`,
`avg_duration_hours`, `total_sleep_hours`), which are exact 2-decimal
values; the steps totals and per-day average are integers (truncated), not
1-decimal floats. -/
theorem C5_amended_rounding_granularity :
    (∀ (workouts : List Workout) (s e : String),
      (get_workout_summary workouts s e).roundingShape) ∧
    (∀ (sessions : List SleepSession) (s e : String),
      (get_sleep_summary sessions s e).roundingShape) ∧
    (∀ (data : List Sample) (s e : String),
      (get_heart_rate_stats data s e).roundingShape) ∧
    (∀ (data : List Sample) (s e : String),
      (get_activity_summary data s e).roundingShape) := by
  refine ⟨?_, ?_, ?_, ?_⟩
  · intro workouts s e
    cases workouts with
    | nil => simp [get_workout_summary, WorkoutSummary.roundingShape]
    | cons w t =>
      simp only [get_workout_summary, List.isEmpty_cons, Bool.false_eq_true, if_false,
        WorkoutSummary.roundingShape]
      refine ⟨roundedTo2_pyRound _, roundedTo1_pyRound _, ?_, ?_⟩
      · intro p hp
        rcases List.mem_map.mp hp with ⟨q, hq, rfl⟩
        exact roundedTo1_pyRound _
      · by_cases h : (hrValues (w :: t)).isEmpty = true <;>
          simp [h, roundedTo1Opt, roundedTo1_pyRound]
  · intro sessions s e
    cases sessions with
    | nil => simp [get_sleep_summary, SleepSummary.roundingShape]
    | cons s0 t0 =>
      simp only [get_sleep_summary, List.isEmpty_cons, Bool.false_eq_true, if_false,
        SleepSummary.roundingShape]
      refine ⟨?_, ?_, roundedTo2_pyRound _, ?_, ?_⟩
      · by_cases h : (mainSleepsOf (s0 :: t0)).isEmpty = true <;>
          simp [h, roundedTo2_pyRound, roundedTo2_zero]
      · by_cases h : (mainSleepsOf (s0 :: t0)).isEmpty = true <;>
          simp [h, roundedTo1_pyRound, roundedTo1_zero]
      · by_cases h :
          (mainSleepsOf (s0 :: t0)).filterMap (fun s => s.efficiency_percent) = [] <;>
          simp [h, roundedTo1Opt, roundedTo1_pyRound]
      · by_cases h : (stageFold (mainSleepsOf (s0 :: t0))).2 = 0
        · simp [h]
        · simp only [h, ne_eq, not_false_eq_true, if_true]
          refine ⟨?_, ?_, ?_, ?_, ?_, ?_⟩
          · simp [h, roundedTo1Opt, roundedTo1_pyRound]
          · simp [h, roundedTo1Opt, roundedTo1_pyRound]
          · simp [h, roundedTo1Opt, roundedTo1_pyRound]
          · simp [h, roundedTo1Opt, roundedTo1_pyRound]
          · by_cases hd : 0 < (stageFold (mainSleepsOf (s0 :: t0))).1.deep +
                (stageFold (mainSleepsOf (s0 :: t0))).1.light +
                (stageFold (mainSleepsOf (s0 :: t0))).1.rem <;>
              simp [hd, roundedTo1Opt, roundedTo1_pyRound]
          · by_cases hd : 0 < (stageFold (mainSleepsOf (s0 :: t0))).1.deep +
                (stageFold (mainSleepsOf (s0 :: t0))).1.light +
                (stageFold (mainSleepsOf (s0 :: t0))).1.rem <;>
              simp [hd, roundedTo1Opt, roundedTo1_pyRound]
  · intro data s e
    by_cases h : ((hrSeries data).isEmpty && (restingSeries data).isEmpty) = true
    · simp [get_heart_rate_stats, h, HeartRateStats.roundingShape]
    · simp only [get_heart_rate_stats, h, if_false, HeartRateStats.roundingShape]
      constructor
      · by_cases h1 : (hrSeries data).isEmpty = true
        · simp [hrStatsBlock, h1]
        · have hne : hrSeries data ≠ [] := by
            intro hc
            rw [hc] at h1
            exact h1 rfl
          rcases List.exists_cons_of_ne_nil hne with ⟨a, t, hv⟩
          rw [hv]
          simp [hrStatsBlock, pyMin, pyMax, roundedTo1Opt, roundedTo1_pyRound]
      · by_cases h1 : (restingSeries data).isEmpty = true
        · simp [hrStatsBlock, h1]
        · have hne : restingSeries data ≠ [] := by
            intro hc
            rw [hc] at h1
            exact h1 rfl
          rcases List.exists_cons_of_ne_nil hne with ⟨a, t, hv⟩
          rw [hv]
          simp [hrStatsBlock, pyMin, pyMax, roundedTo1Opt, roundedTo1_pyRound]
  · intro data s e
    unfold ActivitySummary.roundingShape
    constructor
    · by_cases h : (energyValues data).isEmpty = true <;>
        simp [get_activity_summary, h, roundedTo1_pyRound]
    · by_cases h : (exerciseValues data).isEmpty = true <;>
        simp [get_activity_summary, h, roundedTo1_pyRound]

/-! ### Claim C3: per-day averages over distinct calendar dates -/

/-- C3 amended: the steps `avg_per_day` is the integer truncation — and the
energy `avg_kcal_per_day` the 1-decimal rounding — of the type's summed
values divided by the number of distinct calendar dates occurring among the
timestamped samples of that specific type, the denominator taken as at
least 1 (neither the span length nor the sample count). -/
theorem C3_amended_per_day_average :
    (∀ (data : List Sample) (s e : String), stepsValues data ≠ [] →
      ∃ b, (get_activity_summary data s e).steps = some b ∧
        b.total = pyInt (stepsValues data).sum ∧
        b.avg_per_day =
          pyInt ((stepsValues data).sum / ((max 1 (stepsDateSet data).card : ℕ) : ℚ)) ∧
        b.data_points = (stepsValues data).length) ∧
    (∀ (data : List Sample) (s e : String), energyValues data ≠ [] →
      ∃ b, (get_activity_summary data s e).energy = some b ∧
        b.total_kcal = pyRound (energyValues data).sum 1 ∧
        b.avg_kcal_per_day =
          pyRound ((energyValues data).sum / ((max 1 (energyDateSet data).card : ℕ) : ℚ)) 1 ∧
        b.data_points = (energyValues data).length) := by
  constructor
  · intro data s e h
    have hf : (stepsValues data).isEmpty = false := by
      rw [Bool.eq_false_iff]
      intro hc
      exact h (List.isEmpty_iff.mp hc)
    refine ⟨⟨pyInt (stepsValues data).sum,
        pyInt ((stepsValues data).sum / ((max 1 (stepsDates data).dedup.length : ℕ) : ℚ)),
        (stepsValues data).length⟩, ?_, rfl, ?_, rfl⟩
    · simp [get_activity_summary, hf]
    · simp [stepsDateSet, List.card_toFinset]
  · intro data s e h
    have hf : (energyValues data).isEmpty = false := by
      rw [Bool.eq_false_iff]
      intro hc
      exact h (List.isEmpty_iff.mp hc)
    refine ⟨⟨pyRound (energyValues data).sum 1,
        pyRound ((energyValues data).sum / ((max 1 (energyDates data).dedup.length : ℕ) : ℚ)) 1,
        (energyValues data).length⟩, ?_, rfl, ?_, rfl⟩
    · simp [get_activity_summary, hf]
    · simp [energyDateSet, List.card_toFinset]

/-- C3 counterexample: for steps values 100 and 301 on one date and 500 on
another, the code returns `avg_per_day = int(901/2) = 450`, which differs
from the exact quotient 450.5 that the claim's "equals the sum divided by
the number of distinct dates" asserts. -/
theorem C3_counterexample :
    ∃ b, (get_activity_summary stepsOddSumExample "2024-01-01" "2024-01-31").steps = some b ∧
      b.avg_per_day = 450 ∧
      ((b.avg_per_day : ℚ) ≠
        (stepsValues stepsOddSumExample).sum / ((stepsDateSet stepsOddSumExample).card : ℚ)) := by
  have hsv : stepsValues stepsOddSumExample = [100, 301, 500] := by
    simp [stepsValues, stepsOddSumExample]
  have hdl : (stepsDates stepsOddSumExample).dedup.length = 2 := by decide
  have hcard : (stepsDateSet stepsOddSumExample).card = 2 := by
    rw [stepsDateSet, List.card_toFinset, hdl]
  have hf : (stepsValues stepsOddSumExample).isEmpty = false := by rw [hsv]; rfl
  have havg : pyInt ((stepsValues stepsOddSumExample).sum /
      ((max 1 (stepsDates stepsOddSumExample).dedup.length : ℕ) : ℚ)) = 450 := by
    rw [hsv, hdl]
    have : ([100, 301, 500] : List ℚ).sum / ((max 1 2 : ℕ) : ℚ) = 901 / 2 := by
      norm_num
    rw [this]
    exact pyInt_eval _ 450 (by norm_num) (by norm_num) (by norm_num)
  refine ⟨⟨pyInt (stepsValues stepsOddSumExample).sum, 450, 3⟩, ?_, rfl, ?_⟩
  · simp only [get_activity_summary, hf, Bool.false_eq_true, if_false, havg]
    rw [hsv]
    rfl
  · rw [hsv, hcard]
    norm_num

/-- C3 witness: on the spec's worked example (steps 100 and 300 on one
date, 500 on another) the amended statement applies and yields total 900
and `avg_per_day` 450 over 2 distinct days from 3 samples. -/
theorem C3_amended_per_day_average_witness :
    (stepsValues stepsTwoDayExample ≠ []) ∧
    ∃ b, (get_activity_summary stepsTwoDayExample "2024-01-01" "2024-01-31").steps = some b ∧
      b.total = 900 ∧ b.avg_per_day = 450 ∧ b.data_points = 3 := by
  have hsv : stepsValues stepsTwoDayExample = [100, 300, 500] := by
    simp [stepsValues, stepsTwoDayExample]
  refine ⟨by simp [hsv], ?_⟩
  obtain ⟨b, hb, ht, ha, hp⟩ :=
    C3_amended_per_day_average.1 stepsTwoDayExample "2024-01-01" "2024-01-31" (by simp [hsv])
  have hcard : (stepsDateSet stepsTwoDayExample).card = 2 := by
    rw [stepsDateSet, List.card_toFinset]
    decide
  refine ⟨b, hb, ?_, ?_, ?_⟩
  · rw [ht, hsv]
    have : ([100, 300, 500] : List ℚ).sum = 900 := by norm_num
    rw [this]
    exact pyInt_eval _ 900 (by norm_num) (by norm_num) (by norm_num)
  · rw [ha, hsv, hcard]
    have : ([100, 300, 500] : List ℚ).sum / ((max 1 2 : ℕ) : ℚ) = 450 := by norm_num
    rw [this]
    exact pyInt_eval _ 450 (by norm_num) (by norm_num) (by norm_num)
  · rw [hp, hsv]
    rfl

/-! ### Claim C6: lenient series-type resolution in get_timeseries -/

/-- C6: unparseable series-type names are silently dropped — the fetch, when
reached, is invoked with exactly the parseable subset — and when no
requested name parses the structured notice is returned and the fetch is
never invoked (the result is `notice` for every fetch function). -/
theorem C6_invalid_series_types_dropped :
    (∀ (α : Type) (parseDT : String → Option PyDateTime) (parseUUID : String → Option UUIDv)
        (parseSeries : String → Option SeriesType)
        (fetch : UUIDv → List SeriesType → PyDateTime → PyDateTime → ℤ → α)
        (user_id : String) (series_types : List String) (sdt edt : String) (lim : ℤ)
        (d1 d2 : PyDateTime),
      parseDT sdt = some d1 → parseDT edt = some d2 →
      series_types.filterMap parseSeries ≠ [] →
        get_timeseries parseDT parseUUID parseSeries fetch user_id series_types sdt edt lim =
          (match parseUUID user_id with
           | some uid =>
              .ok (.result (fetch uid (series_types.filterMap parseSeries) d1 d2 (min lim 1000)))
           | none => .error .uuidParseError)) ∧
    (∀ (α : Type) (parseDT : String → Option PyDateTime) (parseUUID : String → Option UUIDv)
        (parseSeries : String → Option SeriesType)
        (fetch : UUIDv → List SeriesType → PyDateTime → PyDateTime → ℤ → α)
        (user_id : String) (series_types : List String) (sdt edt : String) (lim : ℤ)
        (d1 d2 : PyDateTime),
      parseDT sdt = some d1 → parseDT edt = some d2 →
      series_types.filterMap parseSeries = [] →
        get_timeseries parseDT parseUUID parseSeries fetch user_id series_types sdt edt lim =
          .ok .notice) := by
  constructor
  · intro α parseDT parseUUID parseSeries fetch user_id series_types sdt edt lim d1 d2 h1 h2 h3
    have hf : (series_types.filterMap parseSeries).isEmpty = false := by
      rw [Bool.eq_false_iff]
      intro hc
      exact h3 (List.isEmpty_iff.mp hc)
    simp only [get_timeseries, h1, h2, hf, Bool.false_eq_true, if_false]
    cases parseUUID user_id <;> rfl
  · intro α parseDT parseUUID parseSeries fetch user_id series_types sdt edt lim d1 d2 h1 h2 h3
    simp [get_timeseries, h1, h2, h3]

/-- C6 witness: the request consisting only of the unknown name "bogus"
yields the notice under the spec-modelled series-type parser, for an
arbitrary fetch function. -/
theorem C6_invalid_series_types_dropped_witness :
    ((["bogus"] : List String).filterMap SeriesType.parse = [] ∧
      dtAlways "2024-01-01T00:00:00Z" = some ⟨0⟩) ∧
    get_timeseries dtAlways uuidAlways SeriesType.parse fetchConst "user-1" ["bogus"]
        "2024-01-01T00:00:00Z" "2024-01-31T00:00:00Z" 100 = .ok .notice :=
  ⟨⟨by decide, rfl⟩,
    C6_invalid_series_types_dropped.2 ℕ dtAlways uuidAlways SeriesType.parse fetchConst
      "user-1" ["bogus"] "2024-01-01T00:00:00Z" "2024-01-31T00:00:00Z" 100 ⟨0⟩ ⟨0⟩
      rfl rfl (by decide)⟩

/-! ### Claim C10: validation order in get_timeseries -/

/-- C10: the datetimes are parsed first and the series types filtered
second, while the user id is parsed only past the notice branch; hence with
parseable dates and no valid series type the notice is returned even for a
user id that is not a valid UUID, whereas a malformed start datetime raises
even when every series type is invalid. -/
theorem C10_validation_order :
    (∀ (α : Type) (parseDT : String → Option PyDateTime) (parseUUID : String → Option UUIDv)
        (parseSeries : String → Option SeriesType)
        (fetch : UUIDv → List SeriesType → PyDateTime → PyDateTime → ℤ → α)
        (user_id : String) (series_types : List String) (sdt edt : String) (lim : ℤ)
        (d1 d2 : PyDateTime),
      parseDT sdt = some d1 → parseDT edt = some d2 →
      series_types.filterMap parseSeries = [] →
      parseUUID user_id = none →
        get_timeseries parseDT parseUUID parseSeries fetch user_id series_types sdt edt lim =
          .ok .notice) ∧
    (∀ (α : Type) (parseDT : String → Option PyDateTime) (parseUUID : String → Option UUIDv)
        (parseSeries : String → Option SeriesType)
        (fetch : UUIDv → List SeriesType → PyDateTime → PyDateTime → ℤ → α)
        (user_id : String) (series_types : List String) (sdt edt : String) (lim : ℤ),
      parseDT sdt = none →
        get_timeseries parseDT parseUUID parseSeries fetch user_id series_types sdt edt lim =
          .error .dateParseError) := by
  constructor
  · intro α parseDT parseUUID parseSeries fetch user_id series_types sdt edt lim d1 d2 h1 h2 h3 _
    simp [get_timeseries, h1, h2, h3]
  · intro α parseDT parseUUID parseSeries fetch user_id series_types sdt edt lim h1
    simp [get_timeseries, h1]

/-- C10 witness: with parseable dates and the all-invalid request
["bogus"], the notice is returned for a user id that no UUID parser
accepts; and with an unparseable start datetime the ValueError shape is
returned even though every series type is invalid. -/
theorem C10_validation_order_witness :
    ((["bogus"] : List String).filterMap SeriesType.parse = [] ∧
      uuidNever "not-a-uuid" = none ∧ dtNever "2024-13-99" = none) ∧
    get_timeseries dtAlways uuidNever SeriesType.parse fetchConst "not-a-uuid" ["bogus"]
        "2024-01-01T00:00:00Z" "2024-01-31T00:00:00Z" 100 = .ok .notice ∧
    get_timeseries dtNever uuidAlways SeriesType.parse fetchConst "user-1" ["bogus"]
        "2024-13-99" "2024-01-31T00:00:00Z" 100 = .error .dateParseError :=
  ⟨⟨by decide, rfl, rfl⟩,
    C10_validation_order.1 ℕ dtAlways uuidNever SeriesType.parse fetchConst
      "not-a-uuid" ["bogus"] "2024-01-01T00:00:00Z" "2024-01-31T00:00:00Z" 100 ⟨0⟩ ⟨0⟩
      rfl rfl (by decide) rfl,
    C10_validation_order.2 ℕ dtNever uuidAlways SeriesType.parse fetchConst
      "user-1" ["bogus"] "2024-13-99" "2024-01-31T00:00:00Z" 100 rfl⟩

/-! ### Stable descending insertion sort: permutation, sortedness, stability -/

/-- Inserting is a permutation of consing. -/
theorem insertDesc_perm (e : String × ℕ) (l : List (String × ℕ)) :
    (insertDesc e l).Perm (e :: l) := by
  induction l with
  | nil => exact List.Perm.refl _
  | cons h t ih =>
    unfold insertDesc
    by_cases hc : e.2 < h.2
    · rw [if_pos hc]
      exact (ih.cons h).trans (List.Perm.swap e h t)
    · rw [if_neg hc]

/-- The stable sort is a permutation of its input. -/
theorem sortByCountDesc_perm (l : List (String × ℕ)) : (sortByCountDesc l).Perm l := by
  induction l with
  | nil => exact List.Perm.refl _
  | cons h t ih =>
    show (insertDesc h (sortByCountDesc t)).Perm (h :: t)
    exact (insertDesc_perm h (sortByCountDesc t)).trans (ih.cons h)

/-- Insertion preserves sortedness by descending count. -/
theorem insertDesc_sorted (e : String × ℕ) (l : List (String × ℕ))
    (hs : l.Pairwise fun x y => y.2 ≤ x.2) :
    (insertDesc e l).Pairwise fun x y => y.2 ≤ x.2 := by
  induction l with
  | nil => simp [insertDesc]
  | cons h t ih =>
    rcases List.pairwise_cons.mp hs with ⟨hh, ht⟩
    unfold insertDesc
    by_cases hc : e.2 < h.2
    · rw [if_pos hc]
      refine List.pairwise_cons.mpr ⟨?_, ih ht⟩
      intro x hx
      rcases List.mem_cons.mp ((insertDesc_perm e t).mem_iff.mp hx) with rfl | hx1
      · exact le_of_lt hc
      · exact hh x hx1
    · rw [if_neg hc]
      push_neg at hc
      refine List.pairwise_cons.mpr ⟨?_, hs⟩
      intro x hx
      rcases List.mem_cons.mp hx with rfl | hx
      · exact hc
      · exact le_trans (hh x hx) hc

/-- The whole stable sort is sorted by descending count. -/
theorem sortByCountDesc_sorted (l : List (String × ℕ)) :
    (sortByCountDesc l).Pairwise fun x y => y.2 ≤ x.2 := by
  induction l with
  | nil => simp [sortByCountDesc]
  | cons h t ih => exact insertDesc_sorted h _ ih

/-- Inserting an entry of count `c` prepends it to the count-`c` filter:
entries skipped over have strictly larger counts. -/
theorem filter_insertDesc_eq (e : String × ℕ) (l : List (String × ℕ)) (c : ℕ) (he : e.2 = c) :
    (insertDesc e l).filter (fun p => p.2 = c) = e :: l.filter (fun p => p.2 = c) := by
  induction l with
  | nil => simp [insertDesc, he]
  | cons h t ih =>
    unfold insertDesc
    by_cases hc : e.2 < h.2
    · rw [if_pos hc]
      have hh : ¬(h.2 = c) := by omega
      simp only [List.filter_cons, ih]
      simp [hh]
    · rw [if_neg hc]
      simp [List.filter_cons, he]

/-- Inserting an entry of a different count leaves the count-`c` filter
unchanged. -/
theorem filter_insertDesc_ne (e : String × ℕ) (l : List (String × ℕ)) (c : ℕ)
    (he : ¬(e.2 = c)) :
    (insertDesc e l).filter (fun p => p.2 = c) = l.filter (fun p => p.2 = c) := by
  induction l with
  | nil => simp [insertDesc, he]
  | cons h t ih =>
    unfold insertDesc
    by_cases hc : e.2 < h.2
    · rw [if_pos hc]
      simp only [List.filter_cons, ih]
    · rw [if_neg hc]
      simp [List.filter_cons, he]

/-- Stability: for each count value, the stable sort preserves the original
relative order of the entries with that count. -/
theorem sortByCountDesc_stable (l : List (String × ℕ)) (c : ℕ) :
    (sortByCountDesc l).filter (fun p => p.2 = c) = l.filter (fun p => p.2 = c) := by
  induction l with
  | nil => rfl
  | cons h t ih =>
    show (insertDesc h (sortByCountDesc t)).filter _ = _
    by_cases hc : h.2 = c
    · rw [filter_insertDesc_eq _ _ _ hc, ih]
      simp [List.filter_cons, hc]
    · rw [filter_insertDesc_ne _ _ _ hc, ih]
      simp [List.filter_cons, hc]

/-! ### Characterization of the type_counts dict -/

/-- Bumping an unseen key appends it with count 1. -/
theorem bumpCount_not_mem (l : List (String × ℕ)) (a : String)
    (h : a ∉ l.map Prod.fst) : bumpCount l a = l ++ [(a, 1)] := by
  induction l with
  | nil => rfl
  | cons p t ih =>
    have hp : ¬(p.1 = a) := fun hc => h (by simp [hc])
    have ht : a ∉ t.map Prod.fst := fun hc => h (by simp [hc])
    unfold bumpCount
    rw [if_neg hp, ih ht]
    rfl

/-- Bumping a seen key (keys distinct) increments exactly its entry. -/
theorem bumpCount_mem : ∀ (l : List (String × ℕ)) (a : String),
    (l.map Prod.fst).Nodup → a ∈ l.map Prod.fst →
    bumpCount l a = l.map fun p => (p.1, p.2 + if p.1 = a then 1 else 0) := by
  intro l
  induction l with
  | nil =>
    intro a _ h
    cases h
  | cons p t ih =>
    intro a hnd hmem
    have hnd' : (p.1 :: t.map Prod.fst).Nodup := by simpa using hnd
    rcases List.nodup_cons.mp hnd' with ⟨hp, ht⟩
    by_cases hc : p.1 = a
    · subst hc
      unfold bumpCount
      rw [if_pos rfl]
      simp only [List.map_cons, if_pos rfl]
      have htt : t.map (fun p2 => (p2.1, p2.2 + if p2.1 = p.1 then 1 else 0)) = t := by
        refine (List.map_congr_left ?_).trans (List.map_id t)
        intro q hq
        have hq1 : ¬(q.1 = p.1) := fun hc2 => hp (hc2 ▸ List.mem_map_of_mem Prod.fst hq)
        simp [hq1]
      rw [htt]
      simp
    · unfold bumpCount
      rw [if_neg hc]
      have hmem' : a ∈ t.map Prod.fst := by
        rw [List.map_cons] at hmem
        rcases List.mem_cons.mp hmem with h | h
        · exact absurd h.symm hc
        · exact h
      rw [ih a ht hmem']
      simp [List.map_cons, hc]

/-- Bumping a seen key leaves the key list unchanged. -/
theorem bumpCount_keys_mem (l : List (String × ℕ)) (a : String)
    (hnd : (l.map Prod.fst).Nodup) (h : a ∈ l.map Prod.fst) :
    (bumpCount l a).map Prod.fst = l.map Prod.fst := by
  rw [bumpCount_mem l a hnd h, List.map_map]
  exact List.map_congr_left fun p _ => rfl

/-- Bumping an unseen key appends it to the key list. -/
theorem bumpCount_keys_not_mem (l : List (String × ℕ)) (a : String)
    (h : a ∉ l.map Prod.fst) :
    (bumpCount l a).map Prod.fst = l.map Prod.fst ++ [a] := by
  rw [bumpCount_not_mem l a h, List.map_append]
  rfl

/-- Bumping preserves distinctness of the keys. -/
theorem bumpCount_keys_nodup (l : List (String × ℕ)) (a : String)
    (hnd : (l.map Prod.fst).Nodup) : ((bumpCount l a).map Prod.fst).Nodup := by
  by_cases h : a ∈ l.map Prod.fst
  · rw [bumpCount_keys_mem l a hnd h]
    exact hnd
  · rw [bumpCount_keys_not_mem l a h]
    simp [List.nodup_append, hnd, h]

/-- `firstSeenFrom` depends on `seen` only through membership. -/
theorem firstSeenFrom_congr : ∀ (ts s₁ s₂ : List String),
    (∀ x, x ∈ s₁ ↔ x ∈ s₂) → firstSeenFrom s₁ ts = firstSeenFrom s₂ ts := by
  intro ts
  induction ts with
  | nil => intro s₁ s₂ _; rfl
  | cons a t ih =>
    intro s₁ s₂ hiff
    unfold firstSeenFrom
    by_cases h : a ∈ s₁
    · rw [if_pos h, if_pos ((hiff a).mp h)]
      exact ih s₁ s₂ hiff
    · rw [if_neg h, if_neg fun hc => h ((hiff a).mpr hc)]
      rw [ih (a :: s₁) (a :: s₂) ?_]
      intro x
      simp [hiff x]

/-- Members of `firstSeenFrom seen ts` are unseen members of `ts`. -/
theorem mem_firstSeenFrom : ∀ (ts seen : List String) (k : String),
    k ∈ firstSeenFrom seen ts → k ∉ seen ∧ k ∈ ts := by
  intro ts
  induction ts with
  | nil => intro seen k h; cases h
  | cons a t ih =>
    intro seen k h
    unfold firstSeenFrom at h
    by_cases ha : a ∈ seen
    · rw [if_pos ha] at h
      rcases ih seen k h with ⟨h1, h2⟩
      exact ⟨h1, List.mem_cons_of_mem a h2⟩
    · rw [if_neg ha] at h
      rcases List.mem_cons.mp h with rfl | h
      · exact ⟨ha, List.mem_cons_self k t⟩
      · rcases ih (a :: seen) k h with ⟨h1, h2⟩
        exact ⟨fun hc => h1 (List.mem_cons_of_mem a hc), List.mem_cons_of_mem a h2⟩

/-- Every unseen member of `ts` appears in `firstSeenFrom seen ts`. -/
theorem mem_firstSeenFrom_of : ∀ (ts seen : List String) (k : String),
    k ∈ ts → k ∉ seen → k ∈ firstSeenFrom seen ts := by
  intro ts
  induction ts with
  | nil => intro seen k h _; cases h
  | cons a t ih =>
    intro seen k hk hs
    unfold firstSeenFrom
    by_cases ha : a ∈ seen
    · rw [if_pos ha]
      rcases List.mem_cons.mp hk with rfl | hk
      · exact absurd ha hs
      · exact ih seen k hk hs
    · rw [if_neg ha]
      rcases List.mem_cons.mp hk with rfl | hk
      · exact List.mem_cons_self k _
      · by_cases hka : k = a
        · subst hka
          exact List.mem_cons_self k _
        · refine List.mem_cons_of_mem a (ih (a :: seen) k hk ?_)
          simp [hka, hs]

/-- The first-encounter key list has no duplicates. -/
theorem firstSeenFrom_nodup : ∀ (ts seen : List String), (firstSeenFrom seen ts).Nodup := by
  intro ts
  induction ts with
  | nil => intro seen; exact List.nodup_nil
  | cons a t ih =>
    intro seen
    unfold firstSeenFrom
    by_cases ha : a ∈ seen
    · rw [if_pos ha]
      exact ih seen
    · rw [if_neg ha]
      refine List.nodup_cons.mpr ⟨?_, ih (a :: seen)⟩
      intro hc
      exact (mem_firstSeenFrom t (a :: seen) a hc).1 (List.mem_cons_self a _)

/-- Unfolding step: a seen head is skipped. -/
theorem firstSeenFrom_cons_mem (seen : List String) (a : String) (t : List String)
    (h : a ∈ seen) : firstSeenFrom seen (a :: t) = firstSeenFrom seen t := by
  simp [firstSeenFrom, h]

/-- Unfolding step: an unseen head is kept and marked seen. -/
theorem firstSeenFrom_cons_not_mem (seen : List String) (a : String) (t : List String)
    (h : a ∉ seen) : firstSeenFrom seen (a :: t) = a :: firstSeenFrom (a :: seen) t := by
  simp [firstSeenFrom, h]

/-- Master characterization of the counting loop: started from any dict with
distinct keys, it adds each key's number of occurrences to the existing
entries and appends the unseen keys in first-encounter order, paired with
their occurrence counts. -/
theorem foldl_bumpCount_eq : ∀ (ts : List String) (acc : List (String × ℕ)),
    (acc.map Prod.fst).Nodup →
    ts.foldl bumpCount acc =
      acc.map (fun p => (p.1, p.2 + keyCount ts p.1)) ++
        (firstSeenFrom (acc.map Prod.fst) ts).map fun k => (k, keyCount ts k) := by
  intro ts
  induction ts with
  | nil =>
    intro acc _
    simp [keyCount, firstSeenFrom]
  | cons a t ih =>
    intro acc hnd
    rw [List.foldl_cons, ih (bumpCount acc a) (bumpCount_keys_nodup acc a hnd)]
    by_cases hmem : a ∈ acc.map Prod.fst
    · rw [bumpCount_keys_mem acc a hnd hmem, bumpCount_mem acc a hnd hmem,
        firstSeenFrom_cons_mem (acc.map Prod.fst) a t hmem]
      congr 1
      · rw [List.map_map]
        refine List.map_congr_left ?_
        intro p _
        by_cases hpa : p.1 = a
        · simp only [Function.comp_apply, keyCount, hpa, if_pos rfl]
          congr 1
          omega
        · have hap : ¬(a = p.1) := fun h => hpa h.symm
          simp [Function.comp, keyCount, hpa, hap]
      · refine List.map_congr_left ?_
        intro k hk2
        have hka : ¬(a = k) := fun hc => (mem_firstSeenFrom t _ k hk2).1 (hc ▸ hmem)
        simp [keyCount, hka]
    · rw [bumpCount_keys_not_mem acc a hmem, bumpCount_not_mem acc a hmem,
        firstSeenFrom_cons_not_mem (acc.map Prod.fst) a t hmem,
        firstSeenFrom_congr t (acc.map Prod.fst ++ [a]) (a :: acc.map Prod.fst)
          (by intro x; simp [or_comm]),
        List.map_append, List.append_assoc]
      congr 1
      · refine List.map_congr_left ?_
        intro p hp
        have hpa : ¬(a = p.1) :=
          fun hc => hmem (hc ▸ List.mem_map_of_mem Prod.fst hp)
        simp [keyCount, hpa]
      · simp only [List.map_cons, List.singleton_append, List.map_nil]
        congr 1
        · simp [keyCount, Nat.add_comm]
        · refine List.map_congr_left ?_
          intro k hk2
          have hka : ¬(a = k) :=
            fun hc => (mem_firstSeenFrom t _ k hk2).1 (by simp [hc])
          simp [keyCount, hka]

/-- The `type_counts` dict lists the distinct type tags in first-encounter
order, each paired with its occurrence count. -/
theorem typeCounts_eq (workouts : List Workout) :
    typeCounts workouts =
      (firstSeenFrom [] (workouts.map wtypeOf)).map fun k =>
        (k, keyCount (workouts.map wtypeOf) k) := by
  have h := foldl_bumpCount_eq (workouts.map wtypeOf) [] (by simp)
  simpa [typeCounts] using h

/-- A key with a positive occurrence count occurs. -/
theorem keyCount_pos_mem : ∀ (ts : List String) (k : String), 0 < keyCount ts k → k ∈ ts := by
  intro ts
  induction ts with
  | nil => intro k h; simp [keyCount] at h
  | cons a t ih =>
    intro k h
    by_cases hak : a = k
    · rw [hak]
      exact List.mem_cons_self k t
    · simp [keyCount, hak] at h
      exact List.mem_cons_of_mem a (ih k h)

/-- A list sorted by descending count that is a permutation of
`[(a,3), (b,5), (c,1)]` is exactly `[(b,5), (a,3), (c,1)]`: the three counts
are distinct, so the descending order is forced. -/
theorem sorted_perm_eq_triple (l : List (String × ℕ)) (a b c : String)
    (hp : l.Perm [(a, 3), (b, 5), (c, 1)])
    (hs : l.Pairwise fun x y => y.2 ≤ x.2) :
    l = [(b, 5), (a, 3), (c, 1)] := by
  have hnd : l.Nodup := hp.nodup_iff.mpr (by simp)
  have hlen : l.length = 3 := by simpa using hp.length_eq
  rcases l with _ | ⟨x, _ | ⟨y, _ | ⟨z, _ | ⟨w, r⟩⟩⟩⟩ <;> simp_all
  case cons.cons.cons.nil =>
    have hx : x ∈ [(a, 3), (b, 5), (c, 1)] := hp.mem_iff.mp (by simp)
    have hy : y ∈ [(a, 3), (b, 5), (c, 1)] := hp.mem_iff.mp (by simp)
    have hz : z ∈ [(a, 3), (b, 5), (c, 1)] := hp.mem_iff.mp (by simp)
    simp only [List.mem_cons, List.mem_singleton, List.not_mem_nil, or_false] at hx hy hz
    rcases hx with rfl | rfl | rfl <;> rcases hy with rfl | rfl | rfl <;>
      rcases hz with rfl | rfl | rfl <;> simp_all

/-- Filtering the sorted, payload-mapped breakdown by a count value and
taking keys is the same as filtering the dict itself (stability transported
through the payload map). -/
theorem sorted_keys_with_count {β : Type} (tc : List (String × ℕ)) (g : String × ℕ → β)
    (cnt : β → ℕ) (key : β → String)
    (hc : ∀ p, cnt (g p) = p.2) (hk : ∀ p, key (g p) = p.1) (n : ℕ) :
    (((sortByCountDesc tc).map g).filter fun x => cnt x = n).map key =
      (tc.filter fun p => p.2 = n).map Prod.fst := by
  have h1 : ((sortByCountDesc tc).map g).filter (fun x => cnt x = n)
      = (tc.filter fun p => p.2 = n).map g := by
    rw [List.filter_map]
    have h2 : (sortByCountDesc tc).filter ((fun x => decide (cnt x = n)) ∘ g)
        = (sortByCountDesc tc).filter fun p => p.2 = n := by
      refine List.filter_congr ?_
      intro p _
      simp [Function.comp, hc p]
    rw [h2, sortByCountDesc_stable]
  rw [h1, List.map_map]
  exact List.map_congr_left fun p _ => hk p

/-- Keys of the count-`n` entries of a graph list are the keys whose value
is `n`, in order. -/
theorem keys_filter_of_graph (S : List String) (f : String → ℕ) (n : ℕ) :
    ((S.map fun k => (k, f k)).filter fun p => p.2 = n).map Prod.fst =
      S.filter fun k => f k = n := by
  induction S with
  | nil => rfl
  | cons a t ih =>
    simp only [List.map_cons, List.filter_cons]
    by_cases h : f a = n
    · simp [h, ih]
    · simp [h, ih]

/-! ### Claim C2: workout-type breakdown ordering -/

/-- C2: the `workout_types` breakdown is ordered by descending per-type
count; entries with equal counts keep the first-encounter order of their
types in the input (stable sort); and for type multiplicities a-times-3,
b-times-5, c-times-1 the key order is [b, a, c] regardless of the
interleaving of the input. -/
theorem C2_workout_type_ordering :
    (∀ (workouts : List Workout) (s e : String),
      ((get_workout_summary workouts s e).workoutTypes).Pairwise
        fun x y => y.2.count ≤ x.2.count) ∧
    (∀ (workouts : List Workout) (s e : String) (n : ℕ),
      (((get_workout_summary workouts s e).workoutTypes).filter
          fun p => p.2.count = n).map Prod.fst =
        (firstSeenFrom [] (workouts.map wtypeOf)).filter
          fun k => keyCount (workouts.map wtypeOf) k = n) ∧
    (∀ (workouts : List Workout) (s e : String) (a b c : String),
      (∀ w ∈ workouts, wtypeOf w = a ∨ wtypeOf w = b ∨ wtypeOf w = c) →
      keyCount (workouts.map wtypeOf) a = 3 →
      keyCount (workouts.map wtypeOf) b = 5 →
      keyCount (workouts.map wtypeOf) c = 1 →
        ((get_workout_summary workouts s e).workoutTypes).map Prod.fst = [b, a, c]) := by
  refine ⟨?_, ?_, ?_⟩
  · intro workouts s e
    cases workouts with
    | nil => simp [get_workout_summary, WorkoutSummary.workoutTypes]
    | cons w t =>
      simp only [get_workout_summary, List.isEmpty_cons, Bool.false_eq_true, if_false,
        WorkoutSummary.workoutTypes]
      rw [List.pairwise_map]
      exact sortByCountDesc_sorted _
  · intro workouts s e n
    cases workouts with
    | nil => simp [get_workout_summary, WorkoutSummary.workoutTypes, firstSeenFrom]
    | cons w t =>
      simp only [get_workout_summary, List.isEmpty_cons, Bool.false_eq_true, if_false,
        WorkoutSummary.workoutTypes]
      have hA := sorted_keys_with_count (typeCounts (w :: t))
        (fun p => (p.1,
          TypeStats.mk p.2 (pyRound ((lookupDur (typeDurations (w :: t)) p.1 : ℚ) / 60) 1)))
        (fun x => x.2.count) (fun x => x.1) (fun p => rfl) (fun p => rfl) n
      have hC : ((typeCounts (w :: t)).filter fun p => p.2 = n).map Prod.fst =
          (firstSeenFrom [] ((w :: t).map wtypeOf)).filter
            fun k => keyCount ((w :: t).map wtypeOf) k = n := by
        rw [typeCounts_eq]
        exact keys_filter_of_graph (firstSeenFrom [] ((w :: t).map wtypeOf))
          (fun k => keyCount ((w :: t).map wtypeOf) k) n
      exact hA.trans hC
  · intro workouts s e a b c hall hca hcb hcc
    have hamem : a ∈ workouts.map wtypeOf := keyCount_pos_mem _ a (by omega)
    have hbmem : b ∈ workouts.map wtypeOf := keyCount_pos_mem _ b (by omega)
    have hcmem : c ∈ workouts.map wtypeOf := keyCount_pos_mem _ c (by omega)
    have hwne : workouts ≠ [] := by
      intro h
      rw [h] at hamem
      cases hamem
    have hab : a ≠ b := fun h => by rw [h] at hca; omega
    have hac : a ≠ c := fun h => by rw [h] at hca; omega
    have hbc : b ≠ c := fun h => by rw [h] at hcb; omega
    have hSnd : (firstSeenFrom [] (workouts.map wtypeOf)).Nodup :=
      firstSeenFrom_nodup (workouts.map wtypeOf) []
    have hSsub : firstSeenFrom [] (workouts.map wtypeOf) ⊆ [a, b, c] := by
      intro k hk
      have hk2 := (mem_firstSeenFrom (workouts.map wtypeOf) [] k hk).2
      rcases List.mem_map.mp hk2 with ⟨w, hw, rfl⟩
      rcases hall w hw with h | h | h <;> simp [h]
    have hTsub : ([a, b, c] : List String) ⊆ firstSeenFrom [] (workouts.map wtypeOf) := by
      intro k hk
      rcases List.mem_cons.mp hk with rfl | hk
      · exact mem_firstSeenFrom_of _ [] k hamem (List.not_mem_nil k)
      rcases List.mem_cons.mp hk with rfl | hk
      · exact mem_firstSeenFrom_of _ [] k hbmem (List.not_mem_nil k)
      rcases List.mem_cons.mp hk with rfl | hk
      · exact mem_firstSeenFrom_of _ [] k hcmem (List.not_mem_nil k)
      · cases hk
    have hTnd : ([a, b, c] : List String).Nodup := by simp [hab, hac, hbc]
    have hperm : (firstSeenFrom [] (workouts.map wtypeOf)).Perm [a, b, c] :=
      (List.subperm_of_subset hSnd hSsub).antisymm (List.subperm_of_subset hTnd hTsub)
    have hpermg : (typeCounts workouts).Perm [(a, 3), (b, 5), (c, 1)] := by
      rw [typeCounts_eq]
      have h2 := hperm.map fun k => (k, keyCount (workouts.map wtypeOf) k)
      simpa [hca, hcb, hcc] using h2
    have hfinal : sortByCountDesc (typeCounts workouts) = [(b, 5), (a, 3), (c, 1)] :=
      sorted_perm_eq_triple _ a b c
        ((sortByCountDesc_perm _).trans hpermg)
        (sortByCountDesc_sorted _)
    have hie : workouts.isEmpty = false := by
      rw [Bool.eq_false_iff]
      intro hcon
      exact hwne (List.isEmpty_iff.mp hcon)
    simp only [get_workout_summary, hie, Bool.false_eq_true, if_false,
      WorkoutSummary.workoutTypes]
    rw [hfinal]
    rfl

/-- C2 witness: an interleaved input with type multiplicities A-times-3,
B-times-5, C-times-1 yields the key order ["B", "A", "C"]. -/
theorem C2_workout_type_ordering_witness :
    ((∀ w ∈ workoutMixExample,
        wtypeOf w = "A" ∨ wtypeOf w = "B" ∨ wtypeOf w = "C") ∧
      keyCount (workoutMixExample.map wtypeOf) "A" = 3 ∧
      keyCount (workoutMixExample.map wtypeOf) "B" = 5 ∧
      keyCount (workoutMixExample.map wtypeOf) "C" = 1) ∧
    ((get_workout_summary workoutMixExample "2024-01-01" "2024-01-31").workoutTypes).map
        Prod.fst = ["B", "A", "C"] :=
  ⟨⟨by decide, by decide, by decide, by decide⟩,
    C2_workout_type_ordering.2.2 workoutMixExample "2024-01-01" "2024-01-31" "A" "B" "C"
      (by decide) (by decide) (by decide) (by decide)⟩
